import Mathlib

/-!
Verification of the HyGenCMS control daemon against its specification.

The definitions below are a shallow embedding of the Python sources under
src/hygencms (and, where noted, the historical variant under src/src/hygencms).
Machine floats are modelled by exact rationals, byte strings by lists of
natural numbers below 256, and fallible Python code by Option/Except values.
-/

/-! ### BmsClient.fletcher16 (src/hygencms/bmsclient.py, lines 501-527)

The Python loop accumulates, for each byte in received order,
sum1 = (sum1 + byte) mod 255 and then sum2 = (sum2 + sum1) mod 255,
and finally returns (sum1 << 8) | sum2. -/

/-- One iteration of the fletcher16 loop: the pair is (sum1, sum2). -/
def fletcher16_step (p : ℕ × ℕ) (byte : ℕ) : ℕ × ℕ :=
  let sum1 := (p.1 + byte) % 255
  (sum1, (p.2 + sum1) % 255)

/-- The accumulator pair (sum1, sum2) after the loop of BmsClient.fletcher16. -/
def fletcher16_sums (data : List ℕ) : ℕ × ℕ :=
  data.foldl fletcher16_step (0, 0)

/-- BmsClient.fletcher16: returns (sum1 <<< 8) ||| sum2, exactly as the
final line of the Python function. -/
def fletcher16 (data : List ℕ) : ℕ :=
  let p := fletcher16_sums data
  (p.1 <<< 8) ||| p.2

/-- Modelled from the spec: the standard reference Fletcher-16 implementation
described in the spec accumulates s1 and s2 over the bytes in received order
exactly like the code, but packs the final checksum as (s2 << 8) | s1. -/
def fletcher16_ref (data : List ℕ) : ℕ :=
  let p := fletcher16_sums data
  (p.2 <<< 8) ||| p.1

/-- Swap the two bytes of a 16-bit value. -/
def byte_swap16 (n : ℕ) : ℕ :=
  ((n % 256) <<< 8) ||| (n / 256)

/-- Both accumulators stay below 255 throughout the fold. -/
theorem fletcher16_sums_lt (data : List ℕ) :
    ∀ p : ℕ × ℕ, p.1 < 255 → p.2 < 255 →
      (data.foldl fletcher16_step p).1 < 255 ∧ (data.foldl fletcher16_step p).2 < 255 := by
  induction data with
  | nil => intro p h1 h2; exact ⟨h1, h2⟩
  | cons b rest ih =>
    intro p h1 h2
    simp only [List.foldl_cons]
    exact ih (fletcher16_step p b) (Nat.mod_lt _ (by norm_num)) (Nat.mod_lt _ (by norm_num))

/-- Packing a value into the high byte with a small low byte is plain arithmetic. -/
theorem shl8_or_eq (a b : ℕ) (hb : b < 256) : (a <<< 8) ||| b = a * 256 + b := by
  have h1 : a <<< 8 = 2 ^ 8 * a := by
    rw [Nat.shiftLeft_eq, Nat.mul_comm]
  have h2 : 2 ^ 8 * a + b = 2 ^ 8 * a ||| b :=
    Nat.mul_add_lt_is_or (by norm_num at hb ⊢; omega) a
  rw [h1, ← h2]
  ring

/-! ### DeepSeaClient.add_mandatory_measurements (src/hygencms/deepseaclient.py) -/

/-- A measurement descriptor row: name, units, address, register length,
gain, offset, optional poll period (deepseaclient.py, NAME..PERIOD indices). -/
structure Measurement where
  name : String
  units : String
  address : ℕ
  len : ℕ
  gain : ℚ
  offset : ℚ
  period : Option ℚ
deriving DecidableEq

/-- DeepSeaClient.MANDATORY_ADDRESSES: FUEL_LEVEL = 1027, BATTERY_LEVEL = 1223,
RPM = 1030, VIRTUAL_LED_1 = 191 * 256 + 0 = 48896. The Python value is a set;
it is modelled as a list in a fixed order. Note that no kill-flag address is
part of this set, and DeepSeaClient.VIRTUAL_LED_2 is not defined anywhere in
the repository. -/
def MANDATORY_ADDRESSES : List ℕ := [1027, 1223, 1030, 191 * 256 + 0]

/-- DeepSeaClient.MANDATORY_TEMPLATES, a map from mandatory address to its
built-in descriptor row. Keys outside the four mandatory addresses are never
looked up by the code; the model returns a dummy row for them. -/
def MANDATORY_TEMPLATES (address : ℕ) : Measurement :=
  if address = 1027 then ⟨"Fuel level", "%", 1027, 1, 1, 0, some 60⟩
  else if address = 1223 then ⟨"battery level", "V", 1223, 1, 1, 0, some 1⟩
  else if address = 1030 then ⟨"Engine speed", "RPM", 1030, 1, 1, 0, some (1/10)⟩
  else if address = 191 * 256 + 0 then
    ⟨"Enable RPM Control", "boolean", 191 * 256 + 0, 1, 1, 0, some 1⟩
  else ⟨"", "", address, 0, 0, 0, none⟩

/-- The addresses of a descriptor list. -/
def addrs (l : List Measurement) : List ℕ :=
  l.map (fun m => m.address)

/-- DeepSeaClient.add_mandatory_measurements: compute the set of addresses of
the incoming list once, then append the template for every mandatory address
that is not among them. -/
def add_mandatory_measurements (measurement_list : List Measurement) : List Measurement :=
  let addresses := measurement_list.map (fun m => m.address)
  MANDATORY_ADDRESSES.foldl
    (fun acc address =>
      if address ∈ addresses then acc else acc ++ [MANDATORY_TEMPLATES address])
    measurement_list

/-- Membership in the accumulated addresses survives the fold. -/
theorem mem_addrs_fold (A : List ℕ) :
    ∀ (mand : List ℕ) (acc : List Measurement) (b : ℕ), b ∈ addrs acc →
      b ∈ addrs (mand.foldl
        (fun acc address =>
          if address ∈ A then acc else acc ++ [MANDATORY_TEMPLATES address]) acc) := by
  intro mand
  induction mand with
  | nil => intro acc b hb; simpa using hb
  | cons a rest ih =>
    intro acc b hb
    simp only [List.foldl_cons]
    by_cases h : a ∈ A
    · rw [if_pos h]; exact ih acc b hb
    · rw [if_neg h]
      exact ih _ b (by simp [addrs] at hb ⊢; exact Or.inl hb)

/-- Every processed mandatory address ends up among the accumulated addresses,
as long as membership was tested against a subset of the accumulator. -/
theorem mand_mem_addrs_fold (A : List ℕ) :
    ∀ (mand : List ℕ) (acc : List Measurement),
      (∀ x ∈ A, x ∈ addrs acc) →
      (∀ a ∈ mand, (MANDATORY_TEMPLATES a).address = a) →
      ∀ a ∈ mand,
        a ∈ addrs (mand.foldl
          (fun acc address =>
            if address ∈ A then acc else acc ++ [MANDATORY_TEMPLATES address]) acc) := by
  intro mand
  induction mand with
  | nil => intro acc _ _ a ha; simp at ha
  | cons c rest ih =>
    intro acc hA htmpl a ha
    simp only [List.foldl_cons]
    rcases List.mem_cons.mp ha with rfl | hrest
    · by_cases h : a ∈ A
      · rw [if_pos h]
        exact mem_addrs_fold A rest acc a (hA a h)
      · rw [if_neg h]
        refine mem_addrs_fold A rest _ a ?_
        have : (MANDATORY_TEMPLATES a).address = a := htmpl a (List.mem_cons_self a rest)
        simp [addrs, this]
    · by_cases h : c ∈ A
      · rw [if_pos h]
        exact ih acc hA (fun x hx => htmpl x (List.mem_cons_of_mem c hx)) a hrest
      · rw [if_neg h]
        refine ih _ ?_ (fun x hx => htmpl x (List.mem_cons_of_mem c hx)) a hrest
        intro x hx
        simp [addrs] at hA ⊢
        exact Or.inl (hA x hx)

/-- The fold keeps the address list duplicate-free: it only appends a mandatory
address that is absent from the original address set A, provided it is also
absent from the accumulator and the remaining mandatory addresses are distinct. -/
theorem nodup_addrs_fold (A : List ℕ) :
    ∀ (mand : List ℕ) (acc : List Measurement),
      (addrs acc).Nodup →
      mand.Nodup →
      (∀ a ∈ mand, (MANDATORY_TEMPLATES a).address = a) →
      (∀ a ∈ mand, a ∉ A → a ∉ addrs acc) →
      (addrs (mand.foldl
        (fun acc address =>
          if address ∈ A then acc else acc ++ [MANDATORY_TEMPLATES address]) acc)).Nodup := by
  intro mand
  induction mand with
  | nil => intro acc hacc _ _ _; simpa using hacc
  | cons c rest ih =>
    intro acc hacc hnd htmpl habs
    simp only [List.foldl_cons]
    have hndrest : rest.Nodup := (List.nodup_cons.mp hnd).2
    have hcnot : c ∉ rest := (List.nodup_cons.mp hnd).1
    by_cases h : c ∈ A
    · rw [if_pos h]
      exact ih acc hacc hndrest (fun x hx => htmpl x (List.mem_cons_of_mem c hx))
        (fun x hx => habs x (List.mem_cons_of_mem c hx))
    · rw [if_neg h]
      have hcaddr : (MANDATORY_TEMPLATES c).address = c := htmpl c (List.mem_cons_self c rest)
      have haddrs : addrs (acc ++ [MANDATORY_TEMPLATES c]) = addrs acc ++ [c] := by
        simp [addrs, hcaddr]
      refine ih _ ?_ hndrest (fun x hx => htmpl x (List.mem_cons_of_mem c hx)) ?_
      · rw [haddrs]
        have hcacc : c ∉ addrs acc := habs c (List.mem_cons_self c rest) h
        simp [List.nodup_append, hacc, hcacc]
      · intro x hx hxA
        rw [haddrs]
        have h1 : x ∉ addrs acc := habs x (List.mem_cons_of_mem c hx) hxA
        have h2 : x ≠ c := fun hxc => hcnot (hxc ▸ hx)
        simp [h1, h2]

/-- C1 counterexample: on the two-byte input [1, 2] the accumulators end at
(sum1, sum2) = (3, 4); the code returns (3 <<< 8) ||| 4 = 772 while the
reference implementation described by the spec returns (4 <<< 8) ||| 3 = 1027,
so BmsClient.fletcher16 does not equal the standard reference checksum. -/
theorem C1_counterexample : ¬ fletcher16 [1, 2] = fletcher16_ref [1, 2] := by
  decide

/-- C1 (amended): for every byte sequence, BmsClient.fletcher16 computes the
same accumulator pair as the standard reference implementation but packs the
bytes in the opposite order, so its result is exactly the byte-swap of the
reference Fletcher-16 checksum. -/
theorem C1_fletcher16_byteswap (data : List ℕ) :
    fletcher16 data = byte_swap16 (fletcher16_ref data) := by
  obtain ⟨h1, h2⟩ := fletcher16_sums_lt data (0, 0) (by norm_num) (by norm_num)
  rcases hsp : fletcher16_sums data with ⟨s1, s2⟩
  have hs1 : s1 < 255 := by
    have := h1; rw [show data.foldl fletcher16_step (0, 0) = fletcher16_sums data from rfl,
      hsp] at this; exact this
  have hs2 : s2 < 255 := by
    have := h2; rw [show data.foldl fletcher16_step (0, 0) = fletcher16_sums data from rfl,
      hsp] at this; exact this
  simp only [fletcher16, fletcher16_ref, byte_swap16, hsp]
  rw [shl8_or_eq s2 s1 (by omega)]
  have hm : (s2 * 256 + s1) % 256 = s1 := by omega
  have hd : (s2 * 256 + s1) / 256 = s2 := by omega
  rw [hm, hd]

/-- C8 counterexample: add_mandatory_measurements preserves duplicate
addresses already present in its input, so on the list holding the same
descriptor (address 7) twice, the resulting address list is not
duplicate-free, contradicting the claim for every descriptor list. -/
theorem C8_counterexample :
    ¬ (addrs (add_mandatory_measurements
        [⟨"A", "u", 7, 1, 1, 0, none⟩, ⟨"A", "u", 7, 1, 1, 0, none⟩])).Nodup := by
  decide

/-- C8 (amended): for every descriptor list, the result of
add_mandatory_measurements covers all four mandatory addresses of the code
(fuel level 1027, battery level 1223, engine speed 1030, enable flag 48896;
the code has no kill-flag among the mandatory addresses), and whenever the
incoming address list is duplicate-free so is the resulting one. -/
theorem C8_mandatory_superset_nodup (l : List Measurement) :
    (∀ a ∈ MANDATORY_ADDRESSES, a ∈ addrs (add_mandatory_measurements l)) ∧
    ((addrs l).Nodup → (addrs (add_mandatory_measurements l)).Nodup) := by
  constructor
  · intro a ha
    exact mand_mem_addrs_fold (addrs l) MANDATORY_ADDRESSES l
      (fun x hx => hx) (by decide) a ha
  · intro hnd
    exact nodup_addrs_fold (addrs l) MANDATORY_ADDRESSES l hnd (by decide) (by decide)
      (fun a _ h => h)

/-- C8 witness: the amended statement evaluated on the empty descriptor list. -/
theorem C8_witness :
    (1027 ∈ MANDATORY_ADDRESSES ∧ 1027 ∈ addrs (add_mandatory_measurements [])) ∧
    ((addrs ([] : List Measurement)).Nodup ∧ (addrs (add_mandatory_measurements [])).Nodup) :=
  ⟨⟨by decide, (C8_mandatory_superset_nodup []).1 1027 (by decide)⟩,
   ⟨by decide, (C8_mandatory_superset_nodup []).2 (by decide)⟩⟩

/-! ### WoodwardControl (src/hygencms/woodwardcontrol.py)

The controller state. Python floats are modelled as rationals; the PWM duty
cycle written by pwm.set_duty_cycle is tracked in the pwm_duty field. The
direction flag is a Bool: false is DIRECT (0), true is REVERSE (1). -/

structure WoodwardState where
  sample_time : ℚ
  direction : Bool
  setpoint : ℚ
  out_min : ℚ
  out_max : ℚ
  last_time : ℚ
  last_compute_time : ℚ
  process_variable : ℚ
  last_input : ℚ
  integral_term : ℚ
  in_auto : Bool
  kp : ℚ
  ki : ℚ
  kd : ℚ
  slew : ℚ
  ideal_output : ℚ
  output : ℚ
  pwm_duty : ℚ
deriving DecidableEq

/-- WoodwardControl.set_output: the property setter writes the PWM duty cycle
and the stored output only when the value lies in [0, 100]; otherwise the
assignment is silently ignored. -/
def set_output (s : WoodwardState) (value : ℚ) : WoodwardState :=
  if 0 ≤ value ∧ value ≤ 100 then { s with pwm_duty := value, output := value } else s

/-- WoodwardControl.set_tunings: negative gains are rejected as a no-op;
otherwise ki is scaled by the sample time, kd divided by it, and all three
stored gains are negated when the direction is REVERSE. -/
def set_tunings (s : WoodwardState) (kp ki kd : ℚ) : WoodwardState :=
  if kp < 0 ∨ ki < 0 ∨ kd < 0 then s
  else
    let kp1 := kp
    let ki1 := ki * s.sample_time
    let kd1 := kd / s.sample_time
    if s.direction then { s with kp := -kp1, ki := -ki1, kd := -kd1 }
    else { s with kp := kp1, ki := ki1, kd := kd1 }

/-- WoodwardControl.set_controller_direction: stores the new direction and,
when it changed, re-applies set_tunings to the currently stored gains. -/
def set_controller_direction (s : WoodwardState) (direction : Bool) : WoodwardState :=
  let old := s.direction
  let s1 := { s with direction := direction }
  if direction != old then set_tunings s1 s.kp s.ki s.kd else s1

/-- WoodwardControl.set_sample_time: rescales the stored ki and kd by the
ratio of the new to the old sample time. -/
def set_sample_time (s : WoodwardState) (new_sample_time : ℚ) : WoodwardState :=
  if s.sample_time = 0 then { s with sample_time := new_sample_time }
  else if 0 < new_sample_time then
    let q := new_sample_time / s.sample_time
    { s with ki := s.ki * q, kd := s.kd / q, sample_time := new_sample_time }
  else s

/-- WoodwardControl.set_output_limits: clamp the requested bounds to [0, 100],
ignore an inverted pair, then pull the output (through the guarded property
setter) and the integral term inside the new bounds. -/
def set_output_limits (s : WoodwardState) (omin omax : ℚ) : WoodwardState :=
  let omin := if omin < 0 then 0 else omin
  let omax := if 100 < omax then 100 else omax
  if omax < omin then s
  else
    let s1 := { s with out_min := omin, out_max := omax }
    let s2 :=
      if s1.output < s1.out_min then set_output s1 s1.out_min
      else if s1.out_max < s1.output then set_output s1 s1.out_max
      else s1
    if s2.integral_term < s2.out_min then { s2 with integral_term := s2.out_min }
    else if s2.out_max < s2.integral_term then { s2 with integral_term := s2.out_max }
    else s2

/-- WoodwardControl.initialize_pid (named init_pid here): reset last_input to
the process variable, the ideal output and the integral term to the current
output, stamp both clocks with now, and clamp the integral term into bounds. -/
def init_pid (s : WoodwardState) (now : ℚ) : WoodwardState :=
  let s1 := { s with last_input := s.process_variable,
                     ideal_output := s.output,
                     integral_term := s.output,
                     last_time := now,
                     last_compute_time := now }
  if s1.out_max < s1.integral_term then { s1 with integral_term := s1.out_max }
  else if s1.integral_term < s1.out_min then { s1 with integral_term := s1.out_min }
  else s1

/-- WoodwardControl.set_auto: entering auto from manual runs initialize_pid
(bumpless transfer), then the mode flag is updated. -/
def set_auto (s : WoodwardState) (new_auto : Bool) (now : ℚ) : WoodwardState :=
  let s1 := if new_auto && !s.in_auto then init_pid s now else s
  if new_auto != s1.in_auto then { s1 with in_auto := new_auto } else s1

/-- WoodwardControl.compute, with the monotonic clock passed in as now.
Returns the new state together with the value the method returns. When the
sample period has elapsed, the output limits are tightened by the slew rate,
the integral term accumulates the error and is clamped, and the ideal output
is the clamped PID sum with derivative on measurement; otherwise the previous
ideal output is kept. The returned value always moves from the captured
output toward the ideal output at rate at most slew. -/
def compute (s : WoodwardState) (now : ℚ) : WoodwardState × ℚ :=
  if !s.in_auto then (s, s.output)
  else
    let time_change := now - s.last_time
    let dt := now - s.last_compute_time
    let s0 := { s with last_compute_time := now }
    let output := s0.output
    let p :=
      if s0.sample_time ≤ time_change then
        let s2 := set_output_limits s0 (output - time_change * s0.slew)
          (output + time_change * s0.slew)
        let error := s2.setpoint - s2.process_variable
        let integral0 := s2.integral_term + error * s2.ki
        let integral :=
          if s2.out_max < integral0 then s2.out_max
          else if integral0 < s2.out_min then s2.out_min
          else integral0
        let d_pv := s2.process_variable - s2.last_input
        let ideal0 := s2.kp * error + integral - s2.kd * d_pv
        let ideal :=
          if s2.out_max < ideal0 then s2.out_max
          else if ideal0 < s2.out_min then s2.out_min
          else ideal0
        ({ s2 with integral_term := integral, last_time := now,
                   last_input := s2.process_variable }, ideal)
      else (s0, s0.ideal_output)
    let s1 := p.1
    let ideal_output := p.2
    if ideal_output = output then (s1, output)
    else if output + s1.slew * dt < ideal_output then
      ({ s1 with ideal_output := ideal_output }, output + s1.slew * dt)
    else if ideal_output < output - s1.slew * dt then
      ({ s1 with ideal_output := ideal_output }, output - s1.slew * dt)
    else ({ s1 with ideal_output := ideal_output }, ideal_output)

/-- One iteration of the pid branch of WoodwardControl.run: the returned value
of compute is assigned to the output property, which writes the PWM only for
values inside [0, 100]. -/
def compute_step (s : WoodwardState) (now : ℚ) : WoodwardState :=
  let p := compute s now
  set_output p.1 p.2

/-- The operations named by the anti-windup claim: compute ticks of the run
loop, set_output_limits calls, and mode transitions through set_auto, which
is the only caller of initialize_pid. -/
inductive WWOp where
  | computeTick (now : ℚ)
  | outputLimits (omin omax : ℚ)
  | autoMode (flag : Bool) (now : ℚ)

/-- Apply one claimed operation to the controller state. -/
def applyWWOp (s : WoodwardState) : WWOp → WoodwardState
  | .computeTick now => compute_step s now
  | .outputLimits a b => set_output_limits s a b
  | .autoMode f now => set_auto s f now

/-- The windup invariant: the output bounds are ordered and the integral
term lies between them. -/
def BInv (s : WoodwardState) : Prop :=
  s.out_min ≤ s.out_max ∧ s.out_min ≤ s.integral_term ∧ s.integral_term ≤ s.out_max

instance (s : WoodwardState) : Decidable (BInv s) := by
  unfold BInv; infer_instance

/-- set_output never changes the bounds or the integral term. -/
theorem set_output_preserves_BInv (s : WoodwardState) (v : ℚ) (h : BInv s) :
    BInv (set_output s v) := by
  unfold BInv set_output at *
  split_ifs <;> simp_all

set_option maxHeartbeats 1000000 in
/-- set_output_limits preserves the windup invariant. -/
theorem set_output_limits_BInv (s : WoodwardState) (a b : ℚ) (h : BInv s) :
    BInv (set_output_limits s a b) := by
  obtain ⟨h1, h2, h3⟩ := h
  unfold BInv set_output_limits set_output
  dsimp only
  split_ifs <;> (try dsimp only at *) <;> refine ⟨?_, ?_, ?_⟩ <;> dsimp only <;> linarith

/-- initialize_pid re-establishes the windup invariant from ordered bounds. -/
theorem init_pid_BInv (s : WoodwardState) (now : ℚ) (h : s.out_min ≤ s.out_max) :
    BInv (init_pid s now) := by
  unfold BInv init_pid
  dsimp only
  split_ifs <;> (try dsimp only at *) <;> refine ⟨?_, ?_, ?_⟩ <;> dsimp only <;> linarith

/-- set_auto preserves the windup invariant. -/
theorem set_auto_BInv (s : WoodwardState) (f : Bool) (now : ℚ) (h : BInv s) :
    BInv (set_auto s f now) := by
  unfold set_auto
  dsimp only
  split_ifs
  all_goals first
    | exact h
    | exact init_pid_BInv s now h.1

/-- The slew-limiting tail of compute only rewrites the ideal output, so the
windup invariant passes straight through it. -/
theorem slew_tail_fst_BInv (s1 : WoodwardState) (ideal output sd : ℚ) (h : BInv s1) :
    BInv (if ideal = output then (s1, output)
          else if output + sd < ideal then ({ s1 with ideal_output := ideal }, output + sd)
          else if ideal < output - sd then ({ s1 with ideal_output := ideal }, output - sd)
          else ({ s1 with ideal_output := ideal }, ideal)).1 := by
  split_ifs <;> exact h

/-- compute preserves the windup invariant on the controller state. -/
theorem compute_BInv (s : WoodwardState) (now : ℚ) (h : BInv s) :
    BInv (compute s now).1 := by
  unfold compute
  cases hauto : s.in_auto with
  | false =>
    rw [if_pos (show (!false) = true from rfl)]
    exact h
  | true =>
    rw [if_neg (show ¬(!true) = true from by decide)]
    dsimp only
    by_cases hst : s.sample_time ≤ now - s.last_time
    · rw [if_pos hst]
      have hsol : BInv (set_output_limits
          { s with last_compute_time := now, in_auto := true }
          (s.output - (now - s.last_time) * s.slew)
          (s.output + (now - s.last_time) * s.slew)) :=
        set_output_limits_BInv _ _ _ h
      refine slew_tail_fst_BInv _ _ _ _ ?_
      refine ⟨hsol.1, ?_, ?_⟩ <;> dsimp only <;> split_ifs <;>
        linarith [hsol.1, hsol.2.1, hsol.2.2]
    · rw [if_neg hst]
      exact slew_tail_fst_BInv _ _ _ _ h

/-- One run-loop iteration preserves the windup invariant. -/
theorem compute_step_BInv (s : WoodwardState) (now : ℚ) (h : BInv s) :
    BInv (compute_step s now) := by
  unfold compute_step
  exact set_output_preserves_BInv _ _ (compute_BInv s now h)

/-- C4: over any sequence of auto-mode operations (compute ticks,
set_output_limits calls, and mode transitions through initialize_pid), the
integral accumulator never leaves the interval [out_min, out_max]: the windup
invariant is preserved by every such operation, hence by every sequence. -/
theorem C4_integral_in_bounds (s : WoodwardState) (h : BInv s) (ops : List WWOp) :
    BInv (ops.foldl applyWWOp s) := by
  induction ops generalizing s with
  | nil => exact h
  | cons op rest ih =>
    refine ih (applyWWOp s op) ?_
    cases op with
    | computeTick now => exact compute_step_BInv s now h
    | outputLimits a b => exact set_output_limits_BInv s a b h
    | autoMode f now => exact set_auto_BInv s f now h

/-- A concrete controller state for witnesses: the state right after
construction with Kp = 1, Ki = 1, Kd = 1, setpoint 25, period 1. -/
def wwInit : WoodwardState :=
  { sample_time := 1, direction := false, setpoint := 25, out_min := 0, out_max := 100,
    last_time := 0, last_compute_time := 0, process_variable := 25, last_input := 25,
    integral_term := 0, in_auto := false, kp := 1, ki := 1, kd := 1, slew := 10,
    ideal_output := 0, output := 0, pwm_duty := 0 }

/-- C4 witness: the invariant holds at the freshly constructed state and is
carried through a concrete run of one of each operation. -/
theorem C4_witness :
    BInv wwInit ∧
    BInv (([WWOp.autoMode true 1, WWOp.outputLimits 20 80,
            WWOp.computeTick 3]).foldl applyWWOp wwInit) :=
  ⟨by decide, C4_integral_in_bounds wwInit (by decide) _⟩

/-- All state-changing operations on the controller: the run-loop tick plus
every setter the scheduler and the class itself invoke, including the plain
attribute writes performed by main.py. -/
inductive WWFullOp where
  | computeTick (now : ℚ)
  | outputLimits (omin omax : ℚ)
  | autoMode (flag : Bool) (now : ℚ)
  | tunings (kp ki kd : ℚ)
  | dirFlag (d : Bool)
  | sampleTimeSet (t : ℚ)
  | outputWrite (v : ℚ)
  | pvWrite (v : ℚ)
  | setpointWrite (v : ℚ)
  | integralWrite (v : ℚ)

/-- Apply one operation to the controller state. -/
def applyWWFullOp (s : WoodwardState) : WWFullOp → WoodwardState
  | .computeTick now => compute_step s now
  | .outputLimits a b => set_output_limits s a b
  | .autoMode f now => set_auto s f now
  | .tunings kp ki kd => set_tunings s kp ki kd
  | .dirFlag d => set_controller_direction s d
  | .sampleTimeSet t => set_sample_time s t
  | .outputWrite v => set_output s v
  | .pvWrite v => { s with process_variable := v }
  | .setpointWrite v => { s with setpoint := v }
  | .integralWrite v => { s with integral_term := v }

/-- The output range invariant of the claim. -/
def OutInv (s : WoodwardState) : Prop :=
  0 ≤ s.output ∧ s.output ≤ 100

instance (s : WoodwardState) : Decidable (OutInv s) := by
  unfold OutInv; infer_instance

/-- The guarded property setter keeps the output inside [0, 100]. -/
theorem set_output_OutInv (s : WoodwardState) (v : ℚ) (h : OutInv s) :
    OutInv (set_output s v) := by
  unfold OutInv set_output at *
  split_ifs with hg
  · exact ⟨hg.1, hg.2⟩
  · exact h

/-- set_output_limits keeps the output inside [0, 100]. -/
theorem set_output_limits_OutInv (s : WoodwardState) (a b : ℚ) (h : OutInv s) :
    OutInv (set_output_limits s a b) := by
  unfold set_output_limits
  dsimp only
  split_ifs
  all_goals first
    | exact h
    | exact set_output_OutInv _ _ h

/-- The slew-limiting tail of compute does not change the output field. -/
theorem slew_tail_fst_OutInv (s1 : WoodwardState) (ideal output sd : ℚ) (h : OutInv s1) :
    OutInv (if ideal = output then (s1, output)
          else if output + sd < ideal then ({ s1 with ideal_output := ideal }, output + sd)
          else if ideal < output - sd then ({ s1 with ideal_output := ideal }, output - sd)
          else ({ s1 with ideal_output := ideal }, ideal)).1 := by
  split_ifs <;> exact h

/-- The state left behind by compute keeps the output inside [0, 100]. -/
theorem compute_fst_OutInv (s : WoodwardState) (now : ℚ) (h : OutInv s) :
    OutInv (compute s now).1 := by
  unfold compute
  cases hauto : s.in_auto with
  | false =>
    rw [if_pos (show (!false) = true from rfl)]
    exact h
  | true =>
    rw [if_neg (show ¬(!true) = true from by decide)]
    dsimp only
    by_cases hst : s.sample_time ≤ now - s.last_time
    · rw [if_pos hst]
      have hsol : OutInv (set_output_limits
          { s with last_compute_time := now, in_auto := true }
          (s.output - (now - s.last_time) * s.slew)
          (s.output + (now - s.last_time) * s.slew)) :=
        set_output_limits_OutInv _ _ _ h
      exact slew_tail_fst_OutInv _ _ _ _ hsol
    · rw [if_neg hst]
      exact slew_tail_fst_OutInv _ _ _ _ h

/-- One run-loop iteration keeps the output inside [0, 100]. -/
theorem compute_step_OutInv (s : WoodwardState) (now : ℚ) (h : OutInv s) :
    OutInv (compute_step s now) := by
  unfold compute_step
  exact set_output_OutInv _ _ (compute_fst_OutInv s now h)

/-- set_auto and initialize_pid do not touch the output. -/
theorem set_auto_OutInv (s : WoodwardState) (f : Bool) (now : ℚ) (h : OutInv s) :
    OutInv (set_auto s f now) := by
  unfold set_auto init_pid
  dsimp only
  split_ifs <;> exact h

/-- set_tunings does not touch the output. -/
theorem set_tunings_OutInv (s : WoodwardState) (kp ki kd : ℚ) (h : OutInv s) :
    OutInv (set_tunings s kp ki kd) := by
  unfold set_tunings
  dsimp only
  split_ifs <;> exact h

/-- set_controller_direction does not touch the output. -/
theorem set_controller_direction_OutInv (s : WoodwardState) (d : Bool) (h : OutInv s) :
    OutInv (set_controller_direction s d) := by
  unfold set_controller_direction set_tunings
  dsimp only
  split_ifs <;> exact h

/-- set_sample_time does not touch the output. -/
theorem set_sample_time_OutInv (s : WoodwardState) (t : ℚ) (h : OutInv s) :
    OutInv (set_sample_time s t) := by
  unfold set_sample_time
  dsimp only
  split_ifs <;> exact h

/-- C10: assigning a value outside [0, 100] to the output property is a
silent no-op on the whole state (PWM duty cycle included), and consequently
the output stays inside [0, 100] across every sequence of operations started
from a state inside the range, such as the constructed state with output 0. -/
theorem C10_output_guard_and_range :
    (∀ (s : WoodwardState) (v : ℚ), ¬ (0 ≤ v ∧ v ≤ 100) → set_output s v = s) ∧
    (∀ s : WoodwardState, OutInv s →
      ∀ ops : List WWFullOp, OutInv (ops.foldl applyWWFullOp s)) := by
  constructor
  · intro s v hv
    unfold set_output
    rw [if_neg hv]
  · intro s h ops
    induction ops generalizing s with
    | nil => exact h
    | cons op rest ih =>
      refine ih _ ?_
      cases op with
      | computeTick now => exact compute_step_OutInv s now h
      | outputLimits a b => exact set_output_limits_OutInv s a b h
      | autoMode f now => exact set_auto_OutInv s f now h
      | tunings kp ki kd => exact set_tunings_OutInv s kp ki kd h
      | dirFlag d => exact set_controller_direction_OutInv s d h
      | sampleTimeSet t => exact set_sample_time_OutInv s t h
      | outputWrite v => exact set_output_OutInv s v h
      | pvWrite v => exact h
      | setpointWrite v => exact h
      | integralWrite v => exact h

/-- C10 witness: the out-of-range write 150 is ignored on the constructed
state, and a concrete operation sequence keeps the output in range. -/
theorem C10_witness :
    (¬ ((0:ℚ) ≤ 150 ∧ (150:ℚ) ≤ 100) ∧ set_output wwInit 150 = wwInit) ∧
    (OutInv wwInit ∧
     OutInv (([WWFullOp.outputWrite 50, WWFullOp.autoMode true 1,
               WWFullOp.computeTick 3]).foldl applyWWFullOp wwInit)) :=
  ⟨⟨by decide, C10_output_guard_and_range.1 wwInit 150 (by decide)⟩,
   ⟨by decide, C10_output_guard_and_range.2 wwInit (by decide) _⟩⟩

set_option maxHeartbeats 1000000 in
/-- set_output_limits never changes the slew rate. -/
theorem set_output_limits_slew (s : WoodwardState) (a b : ℚ) :
    (set_output_limits s a b).slew = s.slew := by
  unfold set_output_limits set_output
  dsimp only
  split_ifs <;> dsimp only

/-- Properties of the slew-limiting tail of compute: the returned value moves
at most sd away from the captured output and stays between the captured
output and the ideal output recorded in the resulting state. -/
theorem slew_tail_props (s1 : WoodwardState) (ideal output sd : ℚ) (hsd : 0 ≤ sd) :
    |(if ideal = output then (s1, output)
      else if output + sd < ideal then ({ s1 with ideal_output := ideal }, output + sd)
      else if ideal < output - sd then ({ s1 with ideal_output := ideal }, output - sd)
      else ({ s1 with ideal_output := ideal }, ideal)).2 - output| ≤ sd ∧
    min output (if ideal = output then (s1, output)
      else if output + sd < ideal then ({ s1 with ideal_output := ideal }, output + sd)
      else if ideal < output - sd then ({ s1 with ideal_output := ideal }, output - sd)
      else ({ s1 with ideal_output := ideal }, ideal)).1.ideal_output ≤
      (if ideal = output then (s1, output)
      else if output + sd < ideal then ({ s1 with ideal_output := ideal }, output + sd)
      else if ideal < output - sd then ({ s1 with ideal_output := ideal }, output - sd)
      else ({ s1 with ideal_output := ideal }, ideal)).2 ∧
    (if ideal = output then (s1, output)
      else if output + sd < ideal then ({ s1 with ideal_output := ideal }, output + sd)
      else if ideal < output - sd then ({ s1 with ideal_output := ideal }, output - sd)
      else ({ s1 with ideal_output := ideal }, ideal)).2 ≤
      max output (if ideal = output then (s1, output)
      else if output + sd < ideal then ({ s1 with ideal_output := ideal }, output + sd)
      else if ideal < output - sd then ({ s1 with ideal_output := ideal }, output - sd)
      else ({ s1 with ideal_output := ideal }, ideal)).1.ideal_output := by
  split_ifs with h1 h2 h3 <;> dsimp only <;> refine ⟨?_, ?_, ?_⟩
  · simpa using hsd
  · exact min_le_left _ _
  · exact le_max_left _ _
  · rw [abs_le]; constructor <;> linarith
  · exact le_trans (min_le_left _ _) (by linarith)
  · exact le_trans (by linarith) (le_max_right _ _)
  · rw [abs_le]; constructor <;> linarith
  · exact le_trans (min_le_right _ _) (by linarith)
  · exact le_trans (by linarith) (le_max_left _ _)
  · rw [abs_le]; constructor <;> linarith
  · exact min_le_right _ _
  · exact le_max_right _ _

set_option maxHeartbeats 1000000 in
/-- C5: for a single auto-mode compute call at time now, with dt the time
since the previous compute call, the returned output differs from the output
captured before the call by at most slew times dt, and it never moves past
the ideal output recorded by the call (it stays between the previous output
and that ideal output). -/
theorem C5_slew_limit (s : WoodwardState) (now : ℚ) (hauto : s.in_auto = true)
    (hslew : 0 ≤ s.slew) (hdt : s.last_compute_time ≤ now) :
    |(compute s now).2 - s.output| ≤ s.slew * (now - s.last_compute_time) ∧
    min s.output (compute s now).1.ideal_output ≤ (compute s now).2 ∧
    (compute s now).2 ≤ max s.output (compute s now).1.ideal_output := by
  have hsd : 0 ≤ s.slew * (now - s.last_compute_time) :=
    mul_nonneg hslew (by linarith)
  unfold compute
  rw [hauto]
  rw [if_neg (show ¬(!true) = true from by decide)]
  dsimp only
  by_cases hst : s.sample_time ≤ now - s.last_time
  · rw [if_pos hst]
    rw [set_output_limits_slew]
    dsimp only
    exact slew_tail_props _ _ _ _ hsd
  · rw [if_neg hst]
    exact slew_tail_props _ _ _ _ hsd

/-- A fresh auto-mode controller for the C5 witness: in auto, slew 10,
last compute one time unit ago. -/
def wwAuto : WoodwardState :=
  { sample_time := 1, direction := false, setpoint := 25, out_min := 0, out_max := 100,
    last_time := 0, last_compute_time := 0, process_variable := 20, last_input := 20,
    integral_term := 40, in_auto := true, kp := 1, ki := 1, kd := 1, slew := 10,
    ideal_output := 40, output := 30, pwm_duty := 30 }

/-- C5 witness: the slew bound evaluated on a concrete auto-mode state. -/
theorem C5_witness :
    (wwAuto.in_auto = true ∧ (0:ℚ) ≤ wwAuto.slew ∧ wwAuto.last_compute_time ≤ (2:ℚ)) ∧
    (|(compute wwAuto 2).2 - wwAuto.output| ≤ wwAuto.slew * (2 - wwAuto.last_compute_time) ∧
     min wwAuto.output (compute wwAuto 2).1.ideal_output ≤ (compute wwAuto 2).2 ∧
     (compute wwAuto 2).2 ≤ max wwAuto.output (compute wwAuto 2).1.ideal_output) :=
  ⟨⟨by decide, by decide, by decide⟩,
   C5_slew_limit wwAuto 2 (by decide) (by decide) (by decide)⟩

/-- initialize_pid stamps last_time with the current clock. -/
theorem init_pid_last_time (s : WoodwardState) (t : ℚ) :
    (init_pid s t).last_time = t := by
  unfold init_pid
  dsimp only
  split_ifs <;> dsimp only

/-- initialize_pid records the current output as the ideal output. -/
theorem init_pid_ideal_output (s : WoodwardState) (t : ℚ) :
    (init_pid s t).ideal_output = s.output := by
  unfold init_pid
  dsimp only
  split_ifs <;> dsimp only

/-- initialize_pid leaves the output itself untouched. -/
theorem init_pid_output (s : WoodwardState) (t : ℚ) :
    (init_pid s t).output = s.output := by
  unfold init_pid
  dsimp only
  split_ifs <;> dsimp only

/-- initialize_pid leaves the sample time untouched. -/
theorem init_pid_sample_time (s : WoodwardState) (t : ℚ) :
    (init_pid s t).sample_time = s.sample_time := by
  unfold init_pid
  dsimp only
  split_ifs <;> dsimp only

/-- initialize_pid leaves the mode flag untouched. -/
theorem init_pid_in_auto (s : WoodwardState) (t : ℚ) :
    (init_pid s t).in_auto = s.in_auto := by
  unfold init_pid
  dsimp only
  split_ifs <;> dsimp only

/-- Enabling auto from manual runs initialize_pid and then flips the flag. -/
theorem set_auto_true_of_manual (s : WoodwardState) (t : ℚ) (h : s.in_auto = false) :
    set_auto s true t = { init_pid s t with in_auto := true } := by
  unfold set_auto
  rw [h]
  rw [if_pos (show (true && !false) = true from rfl)]
  dsimp only
  rw [init_pid_in_auto, h]
  rw [if_pos (show (true != false) = true from rfl)]

/-- C6: from manual mode with the process variable equal to the output,
enabling auto mode at time t (which re-initializes last_input to the process
variable and the integral term to the output) and then computing at any time
before a full sample period has elapsed returns the unchanged output and
leaves the stored output unchanged. -/
theorem C6_bumpless_transfer (s : WoodwardState) (t tp : ℚ)
    (hman : s.in_auto = false) (hpv : s.process_variable = s.output)
    (ht : tp - t < s.sample_time) :
    (compute (set_auto s true t) tp).2 = s.output ∧
    (compute (set_auto s true t) tp).1.output = s.output := by
  rw [set_auto_true_of_manual s t hman]
  unfold compute
  dsimp only
  rw [if_neg (show ¬(!true) = true from by decide)]
  rw [init_pid_sample_time, init_pid_last_time]
  rw [if_neg (not_le.mpr ht)]
  rw [init_pid_ideal_output, init_pid_output]
  rw [if_pos rfl]
  dsimp only
  exact ⟨rfl, rfl⟩

/-- A manual-mode controller whose process variable equals its output, for
the C6 witness. -/
def wwManual : WoodwardState :=
  { sample_time := 2, direction := false, setpoint := 25, out_min := 0, out_max := 100,
    last_time := 0, last_compute_time := 0, process_variable := 0, last_input := 0,
    integral_term := 0, in_auto := false, kp := 1, ki := 1, kd := 1, slew := 10,
    ideal_output := 0, output := 0, pwm_duty := 0 }

/-- C6 witness: the bumpless transfer evaluated on a concrete manual state. -/
theorem C6_witness :
    (wwManual.in_auto = false ∧ wwManual.process_variable = wwManual.output ∧
      (1 : ℚ) - 0 < wwManual.sample_time) ∧
    ((compute (set_auto wwManual true 0) 1).2 = wwManual.output ∧
     (compute (set_auto wwManual true 0) 1).1.output = wwManual.output) :=
  ⟨⟨rfl, rfl, by norm_num [wwManual]⟩,
   C6_bumpless_transfer wwManual 0 1 rfl rfl (by norm_num [wwManual])⟩

/-- A controller state with sample time 2 whose stored gains are the ones
produced by set_tunings(1, 1, 1) at construction: kp = 1, ki = 1 * 2 = 2,
kd = 1 / 2, direction DIRECT. -/
def wwDirEx : WoodwardState :=
  { sample_time := 2, direction := false, setpoint := 25, out_min := 0, out_max := 100,
    last_time := 0, last_compute_time := 0, process_variable := 25, last_input := 25,
    integral_term := 0, in_auto := false, kp := 1, ki := 2, kd := 1/2, slew := 10,
    ideal_output := 0, output := 0, pwm_duty := 0 }

/-- C7: toggling the direction from direct to reverse does not merely negate
the stored gains, and toggling back does not restore them. The toggle feeds
the stored, already sample-time-scaled gains back through set_tunings, so ki
is additionally rescaled by the sample time (2 becomes -4, not -2) and kd is
divided by it (1/2 becomes -1/4, not -1/2); the toggle back to direct leaves
the gains untouched (still negative) because set_tunings rejects negative
gains, so the original gains are not restored. -/
theorem C7_direction_toggle_bug :
    (set_controller_direction wwDirEx true).kp = -1 ∧
    (set_controller_direction wwDirEx true).ki = -4 ∧
    (set_controller_direction wwDirEx true).kd = -(1/4) ∧
    (set_controller_direction wwDirEx true).ki ≠ -wwDirEx.ki ∧
    (set_controller_direction (set_controller_direction wwDirEx true) false).direction = false ∧
    (set_controller_direction (set_controller_direction wwDirEx true) false).ki = -4 ∧
    (set_controller_direction (set_controller_direction wwDirEx true) false).ki ≠ wwDirEx.ki := by
  norm_num [set_controller_direction, set_tunings, wwDirEx]

/-! ### AnalogClient.run (src/hygencms/analogclient.py, lines 89-129) -/

/-- One sub-period tick of AnalogClient.run for a single channel: if at least
averages samples have accumulated, publish mean * gain + offset to the data
store and reset the (sum, count) pair to (0, 0); then attempt one raw read
and, on success, accumulate it into the possibly just-reset pair. A failed
read (modelled by none, covering the caught RuntimeError, ValueError and
IOError cases) is skipped without touching the pair. The result is the new
(sum, count) pair together with the optionally published value. -/
def analog_tick (averages : ℕ) (gain offset : ℚ) (st : ℚ × ℕ) (reading : Option ℚ) :
    (ℚ × ℕ) × Option ℚ :=
  let pub : Option ℚ :=
    if averages ≤ st.2 then some (st.1 / (st.2 : ℚ) * gain + offset) else none
  let st1 : ℚ × ℕ := if averages ≤ st.2 then (0, 0) else st
  match reading with
  | some v => ((st1.1 + v, st1.2 + 1), pub)
  | none => (st1, pub)

/-- Run the analog ticks over a list of read results, collecting the
published value (or none) of every tick in order. -/
def analog_run (averages : ℕ) (gain offset : ℚ) :
    (ℚ × ℕ) → List (Option ℚ) → ((ℚ × ℕ) × List (Option ℚ))
  | st, [] => (st, [])
  | st, r :: rs =>
    let p := analog_tick averages gain offset st r
    let q := analog_run averages gain offset p.1 rs
    (q.1, p.2 :: q.2)

/-- A successful read below the block size accumulates and publishes nothing. -/
theorem analog_tick_acc (averages : ℕ) (gain offset : ℚ) (sum : ℚ) (n : ℕ) (v : ℚ)
    (hn : ¬ averages ≤ n) :
    analog_tick averages gain offset (sum, n) (some v) = ((sum + v, n + 1), none) := by
  unfold analog_tick
  dsimp only
  rw [if_neg hn, if_neg hn]

/-- A failed read below the block size leaves the pair untouched. -/
theorem analog_tick_failed (averages : ℕ) (gain offset : ℚ) (sum : ℚ) (n : ℕ)
    (hn : ¬ averages ≤ n) :
    analog_tick averages gain offset (sum, n) none = ((sum, n), none) := by
  unfold analog_tick
  dsimp only
  rw [if_neg hn, if_neg hn]

/-- Once the count has reached the block size, the tick publishes the
gain/offset-scaled mean of the accumulated samples. -/
theorem analog_tick_publish (averages : ℕ) (gain offset : ℚ) (sum : ℚ) (n : ℕ)
    (r : Option ℚ) (hn : averages ≤ n) :
    (analog_tick averages gain offset (sum, n) r).2 =
      some (sum / (n : ℚ) * gain + offset) := by
  unfold analog_tick
  cases r <;> dsimp only <;> rw [if_pos hn]

/-- Running over successful reads only, while the block is not yet full,
accumulates the samples and publishes nothing. -/
theorem analog_run_accumulate (averages : ℕ) (gain offset : ℚ) :
    ∀ (vs : List ℚ) (sum : ℚ) (n : ℕ), n + vs.length ≤ averages →
      analog_run averages gain offset (sum, n) (vs.map some) =
        ((sum + vs.sum, n + vs.length), List.replicate vs.length none) := by
  intro vs
  induction vs with
  | nil => intro sum n h; simp [analog_run]
  | cons v rest ih =>
    intro sum n h
    have hn : ¬ averages ≤ n := by simp at h; omega
    simp only [List.map_cons, analog_run]
    rw [analog_tick_acc averages gain offset sum n v hn]
    dsimp only
    rw [ih (sum + v) (n + 1) (by simp at h ⊢; omega)]
    simp only [List.sum_cons, List.length_cons, List.replicate_succ, Prod.mk.injEq]
    exact ⟨⟨by ring, by omega⟩, trivial⟩

/-- Concatenating tick sequences composes the runs. -/
theorem analog_run_append (averages : ℕ) (gain offset : ℚ) :
    ∀ (l1 l2 : List (Option ℚ)) (st : ℚ × ℕ),
      analog_run averages gain offset st (l1 ++ l2) =
        ((analog_run averages gain offset
            (analog_run averages gain offset st l1).1 l2).1,
         (analog_run averages gain offset st l1).2 ++
           (analog_run averages gain offset
             (analog_run averages gain offset st l1).1 l2).2) := by
  intro l1
  induction l1 with
  | nil => intro l2 st; simp [analog_run]
  | cons r rest ih =>
    intro l2 st
    simp only [List.cons_append, analog_run, List.append_eq]
    rw [ih]

/-- C9: starting from the empty accumulator, a block of exactly averages
successful raw reads publishes nothing while it accumulates; the next tick,
whatever its own read does, publishes the mean of those averages samples
times gain plus offset; and a failed read on a tick whose block is not yet
full leaves the (sum, count) accumulator untouched. -/
theorem C9_block_average (averages : ℕ) (gain offset : ℚ) (vs : List ℚ) (r : Option ℚ)
    (h1 : 1 ≤ averages) (h2 : vs.length = averages) :
    (analog_run averages gain offset (0, 0) (vs.map some ++ [r])).2 =
      List.replicate averages none ++
        [some (vs.sum / (averages : ℚ) * gain + offset)] ∧
    (∀ (sum : ℚ) (n : ℕ), n < averages →
      (analog_tick averages gain offset (sum, n) none).1 = (sum, n)) := by
  constructor
  · rw [analog_run_append]
    rw [analog_run_accumulate averages gain offset vs 0 0 (by omega)]
    dsimp only
    simp only [analog_run]
    rw [analog_tick_publish averages gain offset (0 + vs.sum) (0 + vs.length) r (by omega)]
    simp [h2]
  · intro sum n hn
    rw [analog_tick_failed averages gain offset sum n (by omega)]

/-- C9 witness: one-sample blocks with gain 3 and offset 4, a single read of
2 followed by a failed read. -/
theorem C9_witness :
    (1 ≤ 1 ∧ ([(2:ℚ)]).length = 1) ∧
    ((analog_run 1 3 4 (0, 0) (([(2:ℚ)]).map some ++ [none])).2 =
      List.replicate 1 none ++ [some (([(2:ℚ)]).sum / ((1:ℕ) : ℚ) * 3 + 4)] ∧
     (∀ (sum : ℚ) (n : ℕ), n < 1 → (analog_tick 1 3 4 (sum, n) none).1 = (sum, n))) :=
  ⟨⟨by decide, by decide⟩, C9_block_average 1 3 4 [2] none (by decide) (by decide)⟩

/-! ### BmsClient.run and BmsStatus.update (src/hygencms/bmsclient.py)

Serial lines are byte lists. The model follows the Python 2 branch of the
code, where str applied to a byte string is the identity and ord yields the
byte value, so the character indices used by BmsStatus.update address the
same bytes the checksum covers. On a parse failure Python raises ValueError
out of the partially mutated object; the model returns the error and keeps
the previous state, which is equivalent for the claims analyzed here. -/

/-- Python slice l[a:b] for natural bounds. -/
def pySlice (l : List ℕ) (a b : ℕ) : List ℕ :=
  (l.drop a).take (b - a)

/-- Decimal digit test for a byte. -/
def isDecDigit (c : ℕ) : Bool := 48 ≤ c && c ≤ 57

/-- Hexadecimal digit test for a byte. -/
def isHexDigit (c : ℕ) : Bool :=
  (48 ≤ c && c ≤ 57) || (97 ≤ c && c ≤ 102) || (65 ≤ c && c ≤ 70)

/-- Value of a hexadecimal digit byte. -/
def hexVal (c : ℕ) : ℕ :=
  if 48 ≤ c ∧ c ≤ 57 then c - 48
  else if 97 ≤ c ∧ c ≤ 102 then c - 87
  else c - 55

/-- Python int(x, 16) on a byte slice, for the inputs this code meets: a
nonempty string of hexadecimal digits parses to its value; anything else,
including the empty or short slice produced by a short line, raises
ValueError, modelled as none. -/
def int_base16 (s : List ℕ) : Option ℕ :=
  if s ≠ [] ∧ s.all isHexDigit then
    some (s.foldl (fun acc c => acc * 16 + hexVal c) 0)
  else none

/-- Python int(x) on a byte slice: surrounding spaces are stripped, an
optional sign precedes a nonempty digit string; anything else raises
ValueError, modelled as none. -/
def int_base10 (s : List ℕ) : Option ℤ :=
  let t := ((s.dropWhile (fun c => c == 32)).reverse.dropWhile (fun c => c == 32)).reverse
  match t with
  | 45 :: u =>
    if u ≠ [] ∧ u.all isDecDigit then
      some (-(u.foldl (fun acc c => acc * 10 + (c - 48)) 0 : ℕ)) else none
  | 43 :: u =>
    if u ≠ [] ∧ u.all isDecDigit then
      some ((u.foldl (fun acc c => acc * 10 + (c - 48)) 0 : ℕ) : ℤ) else none
  | u =>
    if u ≠ [] ∧ u.all isDecDigit then
      some ((u.foldl (fun acc c => acc * 10 + (c - 48)) 0 : ℕ) : ℤ) else none

/-- The per-module record of BmsModule. -/
structure BmsModule where
  id : ℤ
  state : Option ℕ
  soc : Option ℤ
  min_cell_temp : Option ℤ
  avg_cell_temp : Option ℤ
  max_cell_temp : Option ℤ
  module_voltage : Option ℚ
  min_cell_voltage : Option ℚ
  avg_cell_voltage : Option ℚ
  max_cell_voltage : Option ℚ
  current : Option ℚ
  alarm_and_status : ℕ
  max_front_power_connector_temp : Option ℤ
deriving DecidableEq

/-- BmsModule construction without a line: all fields empty. -/
def newBmsModule (module_id : ℤ) : BmsModule :=
  ⟨module_id, none, none, none, none, none, none, none, none, none, none, 0, none⟩

/-- The ValueError reasons BmsStatus.update and BmsModule.update can raise. -/
inductive BmsValueError where
  | tooShort
  | notModuleReport
  | idMismatch
  | notStatusOrModule
  | fieldParse
deriving DecidableEq

/-- The fixed-width field parse of BmsModule.update, with none standing for
a ValueError from any failed int conversion. -/
def bms_module_fields (m : BmsModule) (line : List ℕ) : Option BmsModule := do
  let soc ← int_base10 (pySlice line 22 25)
  let mint ← int_base10 (pySlice line 26 29)
  let avgt ← int_base10 (pySlice line 30 33)
  let maxt ← int_base10 (pySlice line 34 37)
  let mv ← int_base10 (pySlice line 38 44)
  let minv ← int_base10 (pySlice line 45 51)
  let avgv ← int_base10 (pySlice line 52 58)
  let maxv ← int_base10 (pySlice line 59 65)
  let cur ← int_base10 (pySlice line 66 71)
  let alarm ← int_base16 (pySlice line 72 80)
  let mfpct ← int_base10 (pySlice line 109 112)
  pure { m with state := some (line.getD 20 0),
                soc := some soc,
                min_cell_temp := some mint,
                avg_cell_temp := some avgt,
                max_cell_temp := some maxt,
                module_voltage := some ((mv : ℚ) / 1000),
                min_cell_voltage := some ((minv : ℚ) / 1000),
                avg_cell_voltage := some ((avgv : ℚ) / 1000),
                max_cell_voltage := some ((maxv : ℚ) / 1000),
                current := some ((cur : ℚ) / 10),
                alarm_and_status := alarm,
                max_front_power_connector_temp := some mfpct }

/-- BmsModule.update: guards for length, frame type character M at index 4
and a matching module id, then parses the fixed-width fields. -/
def bms_module_update (m : BmsModule) (line : List ℕ) : Except BmsValueError BmsModule :=
  if line.length < 125 then .error .tooShort
  else if line.getD 4 0 ≠ 77 then .error .notModuleReport
  else match int_base10 (pySlice line 17 19) with
    | none => .error .fieldParse
    | some i =>
      if i ≠ m.id then .error .idMismatch
      else
        match bms_module_fields m line with
        | some m2 => .ok m2
        | none => .error .fieldParse

/-- The top-level BmsStatus record. -/
structure BmsStatus where
  state : Option ℕ
  soc : Option ℤ
  temperature : Option ℤ
  voltage : Option ℚ
  current : Option ℚ
  alarm_and_status : ℕ
  watt_hours_to_full_discharge : Option ℤ
  watt_hours_to_full_charge : Option ℤ
  min_cell_voltage : Option ℚ
  max_cell_voltage : Option ℚ
  front_power_connector_temperature : Option ℤ
  modules : List (ℤ × BmsModule)
deriving DecidableEq

/-- The freshly constructed BmsStatus. -/
def bmsStatus0 : BmsStatus :=
  ⟨none, none, none, none, none, 0, none, none, none, none, none, []⟩

/-- The fixed-width field parse of BmsStatus._update_status, with none
standing for a ValueError from any failed int conversion. -/
def bms_status_fields (st : BmsStatus) (line : List ℕ) : Option BmsStatus := do
  let soc ← int_base10 (pySlice line 19 22)
  let temp ← int_base10 (pySlice line 23 26)
  let volt ← int_base10 (pySlice line 27 33)
  let cur ← int_base10 (pySlice line 34 39)
  let alarm ← int_base16 (pySlice line 40 48)
  let whd ← int_base10 (pySlice line 77 83)
  let whc ← int_base10 (pySlice line 84 90)
  let minv ← int_base10 (pySlice line 91 97)
  let maxv ← int_base10 (pySlice line 98 104)
  let fpct ← int_base10 (pySlice line 105 107)
  pure { st with state := some (line.getD 17 0),
                 soc := some soc,
                 temperature := some temp,
                 voltage := some ((volt : ℚ) / 1000),
                 current := some ((cur : ℚ) / 10),
                 alarm_and_status := alarm,
                 watt_hours_to_full_discharge := some whd,
                 watt_hours_to_full_charge := some whc,
                 min_cell_voltage := some ((minv : ℚ) / 1000),
                 max_cell_voltage := some ((maxv : ℚ) / 1000),
                 front_power_connector_temperature := some fpct }

/-- BmsStatus._update_status: parse the fixed-width fields of a string
status report. -/
def bms_update_status (st : BmsStatus) (line : List ℕ) : Except BmsValueError BmsStatus :=
  match bms_status_fields st line with
  | some st2 => .ok st2
  | none => .error .fieldParse

/-- Replace the record stored under a module id. -/
def updateAssoc (l : List (ℤ × BmsModule)) (k : ℤ) (m : BmsModule) :
    List (ℤ × BmsModule) :=
  l.map (fun p => if p.1 = k then (k, m) else p)

/-- BmsStatus._update_module: parse the module id, then update the existing
module record or create a new one from the line. -/
def bms_update_module (st : BmsStatus) (line : List ℕ) : Except BmsValueError BmsStatus :=
  match int_base10 (pySlice line 17 19) with
  | none => .error .fieldParse
  | some module_id =>
    match st.modules.find? (fun p => p.1 == module_id) with
    | some p =>
      match bms_module_update p.2 line with
      | .error e => .error e
      | .ok m2 => .ok { st with modules := updateAssoc st.modules module_id m2 }
    | none =>
      match bms_module_update (newBmsModule module_id) line with
      | .error e => .error e
      | .ok m2 => .ok { st with modules := st.modules ++ [(module_id, m2)] }

/-- BmsStatus.update: a line shorter than 125 characters raises ValueError;
otherwise the frame type character at index 4 selects the string status or
the module status parser, and any other character raises ValueError. -/
def bms_status_update (st : BmsStatus) (line : List ℕ) : Except BmsValueError BmsStatus :=
  if line.length < 125 then .error .tooShort
  else if line.getD 4 0 = 83 then bms_update_status st line
  else if line.getD 4 0 = 77 then bms_update_module st line
  else .error .notStatusOrModule

/-- The possible outcomes of one iteration of the read loop of BmsClient.run. -/
inductive BmsRunResult where
  | skipped (st : BmsStatus)
  | updated (st : BmsStatus)
  | raised (e : BmsValueError) (st : BmsStatus)
deriving DecidableEq

/-- One iteration of the read loop of BmsClient.run after a successful
readline: the first 122 bytes are the payload and bytes 122 to 125 are the
hexadecimal checksum field; a failed conversion or a checksum mismatch skips
the line (continue). Otherwise the line is forwarded to the raw queue (a
side channel not modelled) and handed to self.status.update, a call that no
try block guards: a ValueError raised there propagates out of run and
terminates the thread, which the raised outcome records. -/
def bms_run_body (st : BmsStatus) (line : List ℕ) : BmsRunResult :=
  let data := line.take 122
  match int_base16 (pySlice line 122 126) with
  | none => .skipped st
  | some checksum =>
    if fletcher16 data ≠ checksum then .skipped st
    else
      match bms_status_update st line with
      | .error e => .raised e st
      | .ok st2 => .updated st2

/-- A 126-byte line whose payload checksum is valid (fletcher16 of the first
122 bytes is 8150, and bytes 122-125 spell 1FD6) but whose frame type byte
at index 4 is X, so BmsStatus.update raises ValueError. -/
def bmsBadLine : List ℕ :=
  List.replicate 4 48 ++ [88] ++ List.replicate 117 48 ++ [49, 70, 68, 54]

set_option maxRecDepth 8000 in
/-- C3: the catch-log-continue policy fails in BmsClient.run. On a line that
passes the checksum test but whose frame type character at index 4 is
neither S nor M, BmsStatus.update raises ValueError, and since that call is
outside every try block of run, the iteration ends with the exception
propagating (terminating the thread) instead of being caught and logged. -/
theorem C3_bms_run_raises :
    fletcher16 (bmsBadLine.take 122) = 8150 ∧
    int_base16 (pySlice bmsBadLine 122 126) = some 8150 ∧
    bmsBadLine.length = 126 ∧
    bmsBadLine.getD 4 0 = 88 ∧
    bms_run_body bmsStatus0 bmsBadLine = .raised .notStatusOrModule bmsStatus0 := by
  refine ⟨by decide, by decide, by decide, by decide, by decide⟩

/-! ### check_kill_switch (src/hygencms/main.py, lines 598-612, and the
historical variant src/src/hygencms/main.py, lines 400-409)

The one-second tier of the scheduler loop calls check_kill_switch and, when
it returns True, writes the fault pin and sets going := False and
shutdown := True. The function reads data_store[DeepSeaClient.VIRTUAL_LED_2];
the class DeepSeaClient defines VIRTUAL_LED_1 but VIRTUAL_LED_2 is not
defined anywhere in the repository, so the attribute access raises
AttributeError on every call. That exception is not the KeyError the
function catches; it propagates to the except Exception handler of the main
loop, which logs it and continues. -/

/-- The exception relevant to check_kill_switch. -/
inductive PyExc where
  | attributeError
deriving DecidableEq

/-- The attribute DeepSeaClient.VIRTUAL_LED_2 as resolved against the class
body of deepseaclient.py: absent, so the lookup raises AttributeError. -/
def VIRTUAL_LED_2_attr : Option ℕ := none

/-- check_kill_switch of src/hygencms/main.py. The data store maps addresses
to optional values: an absent key raises KeyError, which the function
catches and treats as None, and a stored None is falsy. The undefined class
attribute makes the function raise AttributeError before the store is ever
consulted. -/
def check_kill_switch (store : ℕ → Option (Option ℚ)) : Except PyExc Bool :=
  match VIRTUAL_LED_2_attr with
  | none => .error .attributeError
  | some addr =>
    let val : Option ℚ :=
      match store addr with
      | none => none
      | some v => v
    match val with
    | some x => .ok (decide (x ≠ 0))
    | none => .ok false

/-- The kill-switch fragment of the one-second tier of main: on True the
loop sets going := False and shutdown := True; an exception from the call is
caught by the except Exception handler of the loop, which logs it and leaves
both flags unchanged. -/
def kill_tier_step (going shutdown : Bool) (store : ℕ → Option (Option ℚ)) :
    Bool × Bool :=
  match check_kill_switch store with
  | .error _ => (going, shutdown)
  | .ok true => (false, true)
  | .ok false => (going, shutdown)

/-- A data store in which every address, including any candidate kill-flag
address, holds the truthy value 1. -/
def storeAllOn : ℕ → Option (Option ℚ) := fun _ => some (some 1)

/-- C2: in the current scheduler the kill switch can never trigger shutdown,
debounced or not: check_kill_switch raises AttributeError on every call
because DeepSeaClient.VIRTUAL_LED_2 is undefined, the loop catches and logs
the exception, and the going and shutdown flags survive two consecutive
ticks unchanged even with every store value positive. The
two-consecutive-tick debounce described by the claim exists only in the
historical variant src/src/hygencms/main.py, treated below. -/
theorem C2_kill_switch_dead :
    check_kill_switch storeAllOn = .error .attributeError ∧
    kill_tier_step true false storeAllOn = (true, false) ∧
    kill_tier_step (kill_tier_step true false storeAllOn).1
      (kill_tier_step true false storeAllOn).2 storeAllOn = (true, false) :=
  ⟨rfl, rfl, rfl⟩

/-- check_kill_switch of the historical variant src/src/hygencms/main.py:
the state is the pair of module globals (kill_last, kill_now); value is the
GPIO read compared against HIGH. Returns the updated globals and the result
kill_now and kill_last. -/
def old_check_kill_switch (st : Bool × Bool) (value : Bool) : (Bool × Bool) × Bool :=
  let kill_last := st.2
  let kill_now := value
  ((kill_last, kill_now), kill_now && kill_last)

/-- The trigger outputs of the historical variant over a trace of reads. -/
def old_kill_run (st : Bool × Bool) : List Bool → List Bool
  | [] => []
  | v :: vs =>
    let p := old_check_kill_switch st v
    p.2 :: old_kill_run p.1 vs

/-- In the historical variant the kill switch triggers on a tick exactly
when that tick and the previous one both read positive, the read before the
first tick being the initial kill_now global (False at module load): the
debounce the claim describes. -/
theorem old_kill_debounce (st : Bool × Bool) :
    ∀ (l : List Bool) (i : ℕ), i < l.length →
      (old_kill_run st l).getD i false =
        (l.getD i false && (if i = 0 then st.2 else l.getD (i - 1) false)) := by
  intro l
  induction l generalizing st with
  | nil => intro i hi; simp at hi
  | cons v vs ih =>
    intro i hi
    cases i with
    | zero => simp [old_kill_run, old_check_kill_switch, Bool.and_comm]
    | succ j =>
      have hj : j < vs.length := by simpa using hi
      have h2 := ih (st.2, v) j hj
      simp only [old_kill_run, old_check_kill_switch, List.getD_cons_succ]
      rw [h2]
      cases j with
      | zero => simp
      | succ k => simp

/-- Witness for the historical debounce lemma: from the initial globals, the
trace false, true, true triggers exactly on its last tick. -/
theorem old_kill_debounce_witness :
    (1 < ([false, true, true] : List Bool).length ∧
      2 < ([false, true, true] : List Bool).length) ∧
    ((old_kill_run (false, false) [false, true, true]).getD 1 false =
        (([false, true, true] : List Bool).getD 1 false &&
          (if 1 = 0 then false else ([false, true, true] : List Bool).getD 0 false)) ∧
     (old_kill_run (false, false) [false, true, true]).getD 2 false =
        (([false, true, true] : List Bool).getD 2 false &&
          (if 2 = 0 then false else ([false, true, true] : List Bool).getD 1 false))) :=
  ⟨⟨by decide, by decide⟩,
   ⟨old_kill_debounce (false, false) [false, true, true] 1 (by decide),
    old_kill_debounce (false, false) [false, true, true] 2 (by decide)⟩⟩
